import Mathlib

/-!
Verification of the USD mesh exporter
(`source/blender/usd/intern/usd_writer_mesh.cc`).

The C++ source is shallowly embedded: Blender's DNA structs (`MVert`,
`MLoop`, `MPoly`, `MEdge`, `Mesh`) become Lean structures over lists,
the output buffers of `USDMeshData` become lists, float vertex
coordinates and crease sharpness values are modelled over `ℚ`
(`pxr::UsdGeomMesh::SHARPNESS_INFINITE` becomes a distinguished
constructor), and the side effects of `write_mesh` / `assign_materials`
/ `do_write` on the USD stage become explicit result records.  C++
exceptions in `do_write` are modelled with `Except`.
-/

namespace USDMesh

/-- Vertex coordinates (`MVert.co`, a `float[3]`), modelled over `ℚ`.
Coordinates are only copied verbatim by the exporter, never computed with. -/
structure Vec3 where
  x : ℚ
  y : ℚ
  z : ℚ
deriving DecidableEq, Repr

/-- One vertex of the source mesh (`MVert`); only `co` is read. -/
structure MVert where
  co : Vec3
deriving DecidableEq, Repr

/-- One loop of the source mesh (`MLoop`); `v` is the referenced vertex index. -/
structure MLoop where
  v : Nat
deriving DecidableEq, Repr

instance : Inhabited MLoop := ⟨⟨0⟩⟩

/-- One polygon of the source mesh (`MPoly`): a loop-start offset, a loop
count, and a material-slot number (`mat_nr`, a C `short`). -/
structure MPoly where
  loopstart : Nat
  totloop : Nat
  mat_nr : Nat
deriving DecidableEq, Repr

/-- One edge of the source mesh (`MEdge`): two vertex indices and the 8-bit
crease weight (0–255). -/
structure MEdge where
  v1 : Nat
  v2 : Nat
  crease : Nat
deriving DecidableEq, Repr

/-- The source mesh (`Mesh`).  The DNA counters `totvert`, `totpoly`,
`totloop`, `totedge` are the lengths of the corresponding arrays; `totcol`
(the material-slot count) is kept explicit as in the source. -/
structure Mesh where
  mvert : List MVert
  mloop : List MLoop
  mpoly : List MPoly
  medge : List MEdge
  totcol : Nat
deriving DecidableEq, Repr

/-- Crease sharpness value: either the sentinel
`pxr::UsdGeomMesh::SHARPNESS_INFINITE` or a finite float, modelled in `ℚ`. -/
inductive Sharpness where
  | infinite
  | finite (value : ℚ)
deriving DecidableEq, Repr

/-- The intermediate buffer struct `USDMeshData` from the source.
`face_groups` embeds the `std::map<short, pxr::VtIntArray>`: an association
list kept strictly sorted by key, as `std::map` iteration order is by key. -/
structure USDMeshData where
  points : List Vec3
  face_vertex_counts : List Nat
  face_indices : List Nat
  face_groups : List (Nat × List Nat)
  crease_lengths : List Nat
  crease_vertex_indices : List Nat
  crease_sharpnesses : List Sharpness
deriving DecidableEq, Repr

/-- The default-constructed `USDMeshData` in `write_mesh`. -/
def emptyMeshData : USDMeshData :=
  { points := []
    face_vertex_counts := []
    face_indices := []
    face_groups := []
    crease_lengths := []
    crease_vertex_indices := []
    crease_sharpnesses := [] }

/-- Embedding of `usd_mesh_data.face_groups[key].push_back(i)`:
`std::map::operator[]` default-constructs an empty vector at an absent key;
the association list stays sorted by key. -/
def faceGroupsPush : List (Nat × List Nat) → Nat → Nat → List (Nat × List Nat)
  | [], key, i => [(key, [i])]
  | (k, l) :: rest, key, i =>
    if key < k then (key, [i]) :: (k, l) :: rest
    else if key = k then (k, l ++ [i]) :: rest
    else (k, l) :: faceGroupsPush rest key i

/-- Lookup in the `face_groups` map; an absent key reads as the empty list
(matching `std::map::operator[]` default construction on first access). -/
def fgLookup : List (Nat × List Nat) → Nat → List Nat
  | [], _ => []
  | (k, l) :: rest, key => if key = k then l else fgLookup rest key

/-- Embedding of `get_vertices`: push each vertex's coordinates, in index
order, onto `points`. -/
def get_vertices (mesh : Mesh) (d : USDMeshData) : USDMeshData :=
  mesh.mvert.foldl (fun d v => { d with points := d.points ++ [v.co] }) d

/-- The vertex index read by iteration `j` of the inner loop of
`get_loops_polys`: `(mloop + p.loopstart + j)->v`. -/
def loopVert (mesh : Mesh) (p : MPoly) (j : Nat) : Nat :=
  (mesh.mloop.getD (p.loopstart + j) default).v

/-- All vertex indices pushed onto `face_indices` for one polygon by the
inner loop of `get_loops_polys`. -/
def polyLoopVerts (mesh : Mesh) (p : MPoly) : List Nat :=
  (List.range p.totloop).map (loopVert mesh p)

/-- One iteration of the polygon loop of `get_loops_polys`, at polygon
index `ip.1` with polygon `ip.2`. -/
def loopsPolysStep (mesh : Mesh) (d : USDMeshData) (ip : Nat × MPoly) : USDMeshData :=
  { d with
    face_vertex_counts := d.face_vertex_counts ++ [ip.2.totloop]
    face_indices := d.face_indices ++ polyLoopVerts mesh ip.2
    face_groups :=
      if 1 < mesh.totcol then faceGroupsPush d.face_groups ip.2.mat_nr ip.1
      else d.face_groups }

/-- Embedding of `get_loops_polys`: `construct_face_groups` is
`mesh->totcol > 1`, checked in `loopsPolysStep`. -/
def get_loops_polys (mesh : Mesh) (d : USDMeshData) : USDMeshData :=
  mesh.mpoly.enum.foldl (loopsPolysStep mesh) d

/-- The sharpness computed by `get_creases` for a nonzero crease weight:
255 maps to `SHARPNESS_INFINITE`, otherwise `crease * (1.0f / 255.0f)`. -/
def creaseSharpness (crease : Nat) : Sharpness :=
  if crease = 255 then Sharpness.infinite
  else Sharpness.finite ((crease : ℚ) * (1 / 255))

/-- One iteration of the edge loop of `get_creases`. -/
def creasesStep (d : USDMeshData) (e : MEdge) : USDMeshData :=
  if e.crease = 0 then d
  else
    { d with
      crease_vertex_indices := d.crease_vertex_indices ++ [e.v1, e.v2]
      crease_lengths := d.crease_lengths ++ [2]
      crease_sharpnesses := d.crease_sharpnesses ++ [creaseSharpness e.crease] }

/-- Embedding of `get_creases`: scan edges in source order. -/
def get_creases (mesh : Mesh) (d : USDMeshData) : USDMeshData :=
  mesh.medge.foldl creasesStep d

/-- Embedding of `USDGenericMeshWriter::get_geometry_data`, applied to the
default-constructed `USDMeshData` as in `write_mesh`. -/
def get_geometry_data (mesh : Mesh) : USDMeshData :=
  get_creases mesh (get_loops_polys mesh (get_vertices mesh emptyMeshData))

/-- Material (`Material` from DNA); only `blend_flag` is read by this file. -/
structure Material where
  blend_flag : Nat
deriving DecidableEq, Repr

/-- The `MA_BL_CULL_BACKFACE` bit of `Material::blend_flag`. -/
def MA_BL_CULL_BACKFACE : Nat := 4

/-- Exported object (`Object`): its material slots, in order.  `totcol` is
the slot count; an empty slot is `none`. -/
structure Object where
  slots : List (Option Material)
deriving DecidableEq, Repr

/-- The material-slot count `Object::totcol`. -/
def Object.totcol (ob : Object) : Nat := ob.slots.length

/-- Modelled from the spec: `give_current_material` (declared in
`BKE_material.h`, an external collaborator) returns the material in the
1-based slot `act` of the object, or null for an empty or out-of-range
slot — the spec treats slots as an ordered list scanned by index. -/
def give_current_material (ob : Object) (act : Nat) : Option Material :=
  ob.slots.getD (act - 1) none

/-- Embedding of the first loop of `assign_materials`: scan
`give_current_material(ob, mat_num + 1)` for `mat_num = 0, 1, …` and stop
at the first slot holding a material. -/
def scan_slots : List (Option Material) → Option Material
  | [] => none
  | slot :: rest =>
    match slot with
    | some m => some m
    | none => scan_slots rest

/-- Observable effects of one `assign_materials` call on the USD stage:
the whole-mesh material binding, the value given to
`CreateDoubleSidedAttr` (if called), and the created geometry subsets as
(material-slot key, bound material, face-index list) triples in creation
order.  `ensure_usd_material` is modelled as the identity on materials, so
a subset "named after the material" carries the material itself. -/
structure AssignOut where
  bound_material : Option Material
  double_sided : Option Bool
  subsets : List (Nat × Material × List Nat)
deriving DecidableEq, Repr

/-- Embedding of `USDGenericMeshWriter::assign_materials`. -/
def assign_materials (ob : Object) (usd_face_groups : List (Nat × List Nat)) : AssignOut :=
  if ob.totcol = 0 then
    { bound_material := none, double_sided := none, subsets := [] }
  else
    match scan_slots ob.slots with
    | some material =>
      let bound : AssignOut :=
        { bound_material := some material
          double_sided := some (material.blend_flag &&& MA_BL_CULL_BACKFACE == 0)
          subsets := [] }
      if usd_face_groups.length < 2 then bound
      else
        { bound with
          subsets := usd_face_groups.filterMap (fun kf =>
            match give_current_material ob (kf.1 + 1) with
            | none => none
            | some m => some (kf.1, m, kf.2)) }
    | none =>
      { bound_material := none, double_sided := some true, subsets := [] }

/-- Observable effects of one `write_mesh` call on the USD stage: the
geometry attributes set at the current time code, the crease attributes
(set only when `crease_lengths` is non-empty), and the material-assignment
effects (absent when `frame_has_been_written_` short-circuits the call). -/
structure WriteOut where
  points : List Vec3
  face_vertex_counts : List Nat
  face_indices : List Nat
  creases : Option (List Nat × List Nat × List Sharpness)
  assign : Option AssignOut
deriving DecidableEq, Repr

/-- Embedding of `USDGenericMeshWriter::write_mesh`. -/
def write_mesh (frame_has_been_written : Bool) (ob : Object) (mesh : Mesh) : WriteOut :=
  let d := get_geometry_data mesh
  { points := d.points
    face_vertex_counts := d.face_vertex_counts
    face_indices := d.face_indices
    creases :=
      if d.crease_lengths.isEmpty then none
      else some (d.crease_lengths, d.crease_vertex_indices, d.crease_sharpnesses)
    assign :=
      if frame_has_been_written then none
      else some (assign_materials ob d.face_groups) }

/-- The `CreateDoubleSidedAttr` value set during one `write_mesh` call, if
any; the only call site is inside `assign_materials`. -/
def WriteOut.double_sided_written (w : WriteOut) : Option Bool :=
  match w.assign with
  | none => none
  | some a => a.double_sided

/-- Trace of one `do_write` call: the meshes passed to `free_export_mesh`,
in order, and the outcome — `Except.error` when an exception propagates to
the caller, `Except.ok none` for the mesh-is-null skip path, and
`Except.ok (some r)` for a completed `write_mesh` with effects `r`. -/
structure OrchTrace where
  freed : List Mesh
  result : Except Unit (Option WriteOut)
deriving Repr

/-- Embedding of `USDGenericMeshWriter::do_write`.  `acq` is the result of
the virtual `get_export_mesh` call (`none` for a null mesh, otherwise the
mesh and the `needsfree` flag); `wm` is the `write_mesh` call, which may
raise (its USD collaborators can throw).  The try/catch frees the mesh on
both the normal path and the exception path when `needsfree` is set, and
rethrows the exception. -/
def do_write (acq : Option (Mesh × Bool)) (wm : Mesh → Except Unit WriteOut) : OrchTrace :=
  match acq with
  | none => { freed := [], result := Except.ok none }
  | some (mesh, needsfree) =>
    match wm mesh with
    | Except.ok r =>
      { freed := if needsfree then [mesh] else [], result := Except.ok (some r) }
    | Except.error e =>
      { freed := if needsfree then [mesh] else [], result := Except.error e }

/-- The polygon indices assigned to material slot `k`, in source polygon
order (the spec-side description of one face group). -/
def slotPolys (mesh : Mesh) (k : Nat) : List Nat :=
  mesh.mpoly.enum.filterMap (fun ip => if ip.2.mat_nr = k then some ip.1 else none)

/-- Concrete material whose `blend_flag` has `MA_BL_CULL_BACKFACE` set. -/
def exMaterialCull : Material := { blend_flag := 4 }

/-- Concrete material with an empty `blend_flag`. -/
def exMaterialPlain : Material := { blend_flag := 0 }

/-- Concrete object with two filled material slots. -/
def exObject2 : Object := { slots := [some exMaterialCull, some exMaterialPlain] }

/-- Concrete mesh: two triangles over four vertices, two material slots
(one triangle per slot), and edges with crease weights 255, 0 and 128. -/
def exMesh2 : Mesh :=
  { mvert := [⟨⟨0, 0, 0⟩⟩, ⟨⟨1, 0, 0⟩⟩, ⟨⟨1, 1, 0⟩⟩, ⟨⟨0, 1, 0⟩⟩]
    mloop := [⟨0⟩, ⟨1⟩, ⟨2⟩, ⟨0⟩, ⟨2⟩, ⟨3⟩]
    mpoly := [⟨0, 3, 0⟩, ⟨3, 3, 1⟩]
    medge := [⟨0, 1, 255⟩, ⟨1, 2, 0⟩, ⟨2, 0, 128⟩]
    totcol := 2 }

/-! Characterization of `get_vertices`. -/

theorem get_vertices_eq (mesh : Mesh) (d : USDMeshData) :
    get_vertices mesh d = { d with points := d.points ++ mesh.mvert.map MVert.co } := by
  unfold get_vertices
  generalize mesh.mvert = l
  induction l generalizing d with
  | nil => simp
  | cons v rest ih => simp [ih]

/-! Field-wise characterization of the polygon loop of `get_loops_polys`,
stated for an arbitrary list of (index, polygon) pairs. -/

theorem lps_points (mesh : Mesh) (l : List (Nat × MPoly)) (d : USDMeshData) :
    (l.foldl (loopsPolysStep mesh) d).points = d.points := by
  induction l generalizing d with
  | nil => rfl
  | cons p rest ih => simp [loopsPolysStep, ih]

theorem lps_crease_lengths (mesh : Mesh) (l : List (Nat × MPoly)) (d : USDMeshData) :
    (l.foldl (loopsPolysStep mesh) d).crease_lengths = d.crease_lengths := by
  induction l generalizing d with
  | nil => rfl
  | cons p rest ih => simp [loopsPolysStep, ih]

theorem lps_crease_vertex_indices (mesh : Mesh) (l : List (Nat × MPoly)) (d : USDMeshData) :
    (l.foldl (loopsPolysStep mesh) d).crease_vertex_indices = d.crease_vertex_indices := by
  induction l generalizing d with
  | nil => rfl
  | cons p rest ih => simp [loopsPolysStep, ih]

theorem lps_crease_sharpnesses (mesh : Mesh) (l : List (Nat × MPoly)) (d : USDMeshData) :
    (l.foldl (loopsPolysStep mesh) d).crease_sharpnesses = d.crease_sharpnesses := by
  induction l generalizing d with
  | nil => rfl
  | cons p rest ih => simp [loopsPolysStep, ih]

theorem lps_face_vertex_counts (mesh : Mesh) (l : List (Nat × MPoly)) (d : USDMeshData) :
    (l.foldl (loopsPolysStep mesh) d).face_vertex_counts
      = d.face_vertex_counts ++ l.map (fun ip => ip.2.totloop) := by
  induction l generalizing d with
  | nil => simp
  | cons p rest ih => simp [loopsPolysStep, ih]

theorem lps_face_indices (mesh : Mesh) (l : List (Nat × MPoly)) (d : USDMeshData) :
    (l.foldl (loopsPolysStep mesh) d).face_indices
      = d.face_indices ++ (l.map (fun ip => polyLoopVerts mesh ip.2)).flatten := by
  induction l generalizing d with
  | nil => simp
  | cons p rest ih => simp [loopsPolysStep, ih]

theorem lps_face_groups_low (mesh : Mesh) (hc : ¬ 1 < mesh.totcol)
    (l : List (Nat × MPoly)) (d : USDMeshData) :
    (l.foldl (loopsPolysStep mesh) d).face_groups = d.face_groups := by
  induction l generalizing d with
  | nil => rfl
  | cons p rest ih => simp [loopsPolysStep, hc, ih]

theorem lps_face_groups_high (mesh : Mesh) (hc : 1 < mesh.totcol)
    (l : List (Nat × MPoly)) (d : USDMeshData) :
    (l.foldl (loopsPolysStep mesh) d).face_groups
      = l.foldl (fun m ip => faceGroupsPush m ip.2.mat_nr ip.1) d.face_groups := by
  induction l generalizing d with
  | nil => rfl
  | cons p rest ih => simp [loopsPolysStep, hc, ih]

/-! Field-wise characterization of the edge loop of `get_creases`. -/

theorem creases_points (l : List MEdge) (d : USDMeshData) :
    (l.foldl creasesStep d).points = d.points := by
  induction l generalizing d with
  | nil => rfl
  | cons e rest ih =>
    by_cases h : e.crease = 0 <;> simp [creasesStep, h, ih]

theorem creases_face_vertex_counts (l : List MEdge) (d : USDMeshData) :
    (l.foldl creasesStep d).face_vertex_counts = d.face_vertex_counts := by
  induction l generalizing d with
  | nil => rfl
  | cons e rest ih =>
    by_cases h : e.crease = 0 <;> simp [creasesStep, h, ih]

theorem creases_face_indices (l : List MEdge) (d : USDMeshData) :
    (l.foldl creasesStep d).face_indices = d.face_indices := by
  induction l generalizing d with
  | nil => rfl
  | cons e rest ih =>
    by_cases h : e.crease = 0 <;> simp [creasesStep, h, ih]

theorem creases_face_groups (l : List MEdge) (d : USDMeshData) :
    (l.foldl creasesStep d).face_groups = d.face_groups := by
  induction l generalizing d with
  | nil => rfl
  | cons e rest ih =>
    by_cases h : e.crease = 0 <;> simp [creasesStep, h, ih]

theorem creases_lengths (l : List MEdge) (d : USDMeshData) :
    (l.foldl creasesStep d).crease_lengths
      = d.crease_lengths ++ (l.filter (fun e => e.crease != 0)).map (fun _ => 2) := by
  induction l generalizing d with
  | nil => simp
  | cons e rest ih =>
    by_cases h : e.crease = 0 <;> simp [creasesStep, h, ih]

theorem creases_vertex_indices (l : List MEdge) (d : USDMeshData) :
    (l.foldl creasesStep d).crease_vertex_indices
      = d.crease_vertex_indices
        ++ ((l.filter (fun e => e.crease != 0)).map (fun e => [e.v1, e.v2])).flatten := by
  induction l generalizing d with
  | nil => simp
  | cons e rest ih =>
    by_cases h : e.crease = 0 <;> simp [creasesStep, h, ih]

theorem creases_sharpnesses (l : List MEdge) (d : USDMeshData) :
    (l.foldl creasesStep d).crease_sharpnesses
      = d.crease_sharpnesses
        ++ (l.filter (fun e => e.crease != 0)).map (fun e => creaseSharpness e.crease) := by
  induction l generalizing d with
  | nil => simp
  | cons e rest ih =>
    by_cases h : e.crease = 0 <;> simp [creasesStep, h, ih]

/-! Characterization of `get_geometry_data`, field by field. -/

theorem gd_points (mesh : Mesh) :
    (get_geometry_data mesh).points = mesh.mvert.map MVert.co := by
  unfold get_geometry_data get_loops_polys get_creases
  rw [creases_points, lps_points, get_vertices_eq]
  simp [emptyMeshData]

theorem gd_face_vertex_counts (mesh : Mesh) :
    (get_geometry_data mesh).face_vertex_counts = mesh.mpoly.map MPoly.totloop := by
  unfold get_geometry_data get_loops_polys get_creases
  rw [creases_face_vertex_counts, lps_face_vertex_counts, get_vertices_eq]
  have h : (fun ip : Nat × MPoly => ip.2.totloop) = MPoly.totloop ∘ Prod.snd := rfl
  simp [emptyMeshData, h, ← List.map_map, List.enum_map_snd]

theorem gd_face_indices (mesh : Mesh) :
    (get_geometry_data mesh).face_indices
      = (mesh.mpoly.map (polyLoopVerts mesh)).flatten := by
  unfold get_geometry_data get_loops_polys get_creases
  rw [creases_face_indices, lps_face_indices, get_vertices_eq]
  have h : (fun ip : Nat × MPoly => polyLoopVerts mesh ip.2)
      = polyLoopVerts mesh ∘ Prod.snd := rfl
  simp [emptyMeshData, h, ← List.map_map, List.enum_map_snd]

theorem gd_face_groups (mesh : Mesh) :
    (get_geometry_data mesh).face_groups
      = if 1 < mesh.totcol then
          mesh.mpoly.enum.foldl (fun m ip => faceGroupsPush m ip.2.mat_nr ip.1) []
        else [] := by
  unfold get_geometry_data get_loops_polys get_creases
  rw [creases_face_groups]
  by_cases hc : 1 < mesh.totcol
  · rw [lps_face_groups_high mesh hc, get_vertices_eq]
    simp [emptyMeshData, hc]
  · rw [lps_face_groups_low mesh hc, get_vertices_eq]
    simp [emptyMeshData, hc]

theorem gd_crease_lengths (mesh : Mesh) :
    (get_geometry_data mesh).crease_lengths
      = (mesh.medge.filter (fun e => e.crease != 0)).map (fun _ => 2) := by
  unfold get_geometry_data get_loops_polys get_creases
  rw [creases_lengths, lps_crease_lengths, get_vertices_eq]
  simp [emptyMeshData]

theorem gd_crease_vertex_indices (mesh : Mesh) :
    (get_geometry_data mesh).crease_vertex_indices
      = ((mesh.medge.filter (fun e => e.crease != 0)).map (fun e => [e.v1, e.v2])).flatten := by
  unfold get_geometry_data get_loops_polys get_creases
  rw [creases_vertex_indices, lps_crease_vertex_indices, get_vertices_eq]
  simp [emptyMeshData]

theorem gd_crease_sharpnesses (mesh : Mesh) :
    (get_geometry_data mesh).crease_sharpnesses
      = (mesh.medge.filter (fun e => e.crease != 0)).map
          (fun e => creaseSharpness e.crease) := by
  unfold get_geometry_data get_loops_polys get_creases
  rw [creases_sharpnesses, lps_crease_sharpnesses, get_vertices_eq]
  simp [emptyMeshData]

/-! Lemmas about the `face_groups` association list. -/

/-- Keys appearing after a push are the pushed key or an old key. -/
theorem mem_faceGroupsPush {m : List (Nat × List Nat)} {key i : Nat}
    {x : Nat × List Nat} (hx : x ∈ faceGroupsPush m key i) :
    x.1 = key ∨ ∃ y ∈ m, x.1 = y.1 := by
  induction m with
  | nil =>
    simp [faceGroupsPush] at hx
    left; rw [hx]
  | cons p rest ih =>
    obtain ⟨k, l⟩ := p
    simp only [faceGroupsPush] at hx
    by_cases h1 : key < k
    · rw [if_pos h1] at hx
      rcases List.mem_cons.mp hx with h | hx2
      · left; rw [h]
      rcases List.mem_cons.mp hx2 with h | h
      · exact Or.inr ⟨(k, l), List.mem_cons_self _ _, by rw [h]⟩
      · exact Or.inr ⟨x, List.mem_cons_of_mem _ h, rfl⟩
    · by_cases h2 : key = k
      · rw [if_neg h1, if_pos h2] at hx
        rcases List.mem_cons.mp hx with h | h
        · left; rw [h, h2]
        · exact Or.inr ⟨x, List.mem_cons_of_mem _ h, rfl⟩
      · rw [if_neg h1, if_neg h2] at hx
        rcases List.mem_cons.mp hx with h | h
        · exact Or.inr ⟨(k, l), List.mem_cons_self _ _, by rw [h]⟩
        · rcases ih h with h' | ⟨y, hy, hxy⟩
          · exact Or.inl h'
          · exact Or.inr ⟨y, List.mem_cons_of_mem _ hy, hxy⟩

/-- Pushing preserves strict key-sortedness of the `face_groups` map. -/
theorem faceGroupsPush_sorted {m : List (Nat × List Nat)} {key i : Nat}
    (hm : m.Pairwise (fun a b => a.1 < b.1)) :
    (faceGroupsPush m key i).Pairwise (fun a b => a.1 < b.1) := by
  induction m with
  | nil => simp [faceGroupsPush]
  | cons p rest ih =>
    obtain ⟨k, l⟩ := p
    rw [List.pairwise_cons] at hm
    obtain ⟨hk, hrest⟩ := hm
    simp only [faceGroupsPush]
    by_cases h1 : key < k
    · simp only [if_pos h1]
      refine List.Pairwise.cons ?_ (List.Pairwise.cons hk hrest)
      intro x hx
      rcases List.mem_cons.mp hx with h | h
      · rw [h]; exact h1
      · exact lt_trans h1 (hk x h)
    · by_cases h2 : key = k
      · simp only [if_neg h1, if_pos h2]
        exact List.Pairwise.cons hk hrest
      · simp only [if_neg h1, if_neg h2]
        refine List.Pairwise.cons ?_ (ih hrest)
        intro x hx
        rcases mem_faceGroupsPush hx with h | ⟨y, hy, hxy⟩
        · rw [h]; omega
        · rw [hxy]; exact hk y hy

/-- Lookup at an absent key yields the empty list. -/
theorem fgLookup_eq_nil {m : List (Nat × List Nat)} {key : Nat}
    (h : ∀ x ∈ m, x.1 ≠ key) : fgLookup m key = [] := by
  induction m with
  | nil => rfl
  | cons p rest ih =>
    obtain ⟨k, l⟩ := p
    have hk : k ≠ key := h (k, l) (List.mem_cons_self _ _)
    have hne : ¬ key = k := fun hkey => hk hkey.symm
    show (if key = k then l else fgLookup rest key) = []
    rw [if_neg hne]
    exact ih (fun x hx => h x (List.mem_cons_of_mem _ hx))

/-- Effect of one push on lookups, over a key-sorted map. -/
theorem fgLookup_push {m : List (Nat × List Nat)} {key i k : Nat}
    (hm : m.Pairwise (fun a b => a.1 < b.1)) :
    fgLookup (faceGroupsPush m key i) k
      = if k = key then fgLookup m k ++ [i] else fgLookup m k := by
  induction m with
  | nil =>
    by_cases h : k = key <;> simp [faceGroupsPush, fgLookup, h]
  | cons p rest ih =>
    obtain ⟨k', l⟩ := p
    rw [List.pairwise_cons] at hm
    obtain ⟨hk', hrest⟩ := hm
    show fgLookup (if key < k' then (key, [i]) :: (k', l) :: rest
        else if key = k' then (k', l ++ [i]) :: rest
        else (k', l) :: faceGroupsPush rest key i) k = _
    by_cases h1 : key < k'
    · rw [if_pos h1]
      show (if k = key then [i] else fgLookup ((k', l) :: rest) k) = _
      by_cases h : k = key
      · rw [if_pos h, if_pos h]
        have hrestnil : fgLookup rest k = [] := by
          refine fgLookup_eq_nil (fun x hx => ?_)
          have h3 : k' < x.1 := hk' x hx
          omega
        show [i] = (if k = k' then l else fgLookup rest k) ++ [i]
        rw [if_neg (by omega), hrestnil]
        rfl
      · rw [if_neg h, if_neg h]
    · rw [if_neg h1]
      by_cases h2 : key = k'
      · rw [if_pos h2]
        subst h2
        show (if k = key then l ++ [i] else fgLookup rest k) = _
        by_cases h : k = key
        · rw [if_pos h, if_pos h]
          show l ++ [i] = (if k = key then l else fgLookup rest k) ++ [i]
          rw [if_pos h]
        · rw [if_neg h, if_neg h]
          show fgLookup rest k = if k = key then l else fgLookup rest k
          rw [if_neg h]
      · rw [if_neg h2]
        show (if k = k' then l else fgLookup (faceGroupsPush rest key i) k) = _
        by_cases h : k = k'
        · rw [if_pos h]
          have hne : ¬ k = key := by omega
          rw [if_neg hne]
          show l = if k = k' then l else fgLookup rest k
          rw [if_pos h]
        · rw [if_neg h, ih hrest]
          by_cases hk : k = key
          · rw [if_pos hk, if_pos hk]
            show fgLookup rest k ++ [i] = (if k = k' then l else fgLookup rest k) ++ [i]
            rw [if_neg h]
          · rw [if_neg hk, if_neg hk]
            show fgLookup rest k = if k = k' then l else fgLookup rest k
            rw [if_neg h]

/-- Folding the polygon loop's pushes over a key-sorted map keeps it
key-sorted. -/
theorem fgFold_sorted (l : List (Nat × MPoly)) (m : List (Nat × List Nat))
    (hm : m.Pairwise (fun a b => a.1 < b.1)) :
    (l.foldl (fun m ip => faceGroupsPush m ip.2.mat_nr ip.1) m).Pairwise
      (fun a b => a.1 < b.1) := by
  induction l generalizing m with
  | nil => exact hm
  | cons ip rest ih => exact ih _ (faceGroupsPush_sorted hm)

/-- Lookup after folding the polygon loop's pushes: the old list followed
by the indices of the pushed pairs whose `mat_nr` equals the key, in push
order. -/
theorem fgFold_lookup (l : List (Nat × MPoly)) (m : List (Nat × List Nat))
    (hm : m.Pairwise (fun a b => a.1 < b.1)) (k : Nat) :
    fgLookup (l.foldl (fun m ip => faceGroupsPush m ip.2.mat_nr ip.1) m) k
      = fgLookup m k
        ++ l.filterMap (fun ip => if ip.2.mat_nr = k then some ip.1 else none) := by
  induction l generalizing m with
  | nil => simp
  | cons ip rest ih =>
    rw [List.foldl_cons, ih _ (faceGroupsPush_sorted hm),
      fgLookup_push hm, List.filterMap_cons]
    by_cases h : ip.2.mat_nr = k
    · rw [if_pos h.symm, if_pos h]
      simp
    · have h' : ¬ k = ip.2.mat_nr := fun hk => h hk.symm
      rw [if_neg h', if_neg h]

/-- With more than one material slot, looking up slot `k` in the extracted
`face_groups` yields exactly the polygons of slot `k` in source order. -/
theorem gd_fg_lookup (mesh : Mesh) (hc : 1 < mesh.totcol) (k : Nat) :
    fgLookup (get_geometry_data mesh).face_groups k = slotPolys mesh k := by
  rw [gd_face_groups, if_pos hc, fgFold_lookup _ _ (by simp) k]
  rfl

/-- The extracted `face_groups` map is strictly sorted by slot key. -/
theorem gd_fg_sorted (mesh : Mesh) :
    (get_geometry_data mesh).face_groups.Pairwise (fun a b => a.1 < b.1) := by
  rw [gd_face_groups]
  by_cases hc : 1 < mesh.totcol
  · rw [if_pos hc]
    exact fgFold_sorted _ _ (by simp)
  · rw [if_neg hc]
    simp

/-- Indices paired by `enumFrom` are strictly increasing. -/
theorem enumFrom_pairwise_fst {α : Type _} (n : Nat) (l : List α) :
    (l.enumFrom n).Pairwise (fun a b => a.1 < b.1) := by
  induction l generalizing n with
  | nil => simp
  | cons a rest ih =>
    rw [List.enumFrom_cons]
    refine List.Pairwise.cons ?_ (ih (n + 1))
    intro x hx
    obtain ⟨j, y⟩ := x
    obtain ⟨h1, -⟩ := List.mem_enumFrom hx
    exact Nat.lt_of_lt_of_le (Nat.lt_succ_self n) h1

/-- Membership in a face group: polygon `i` is in slot `k`'s group exactly
when polygon `i` exists and has `mat_nr = k`. -/
theorem mem_slotPolys {mesh : Mesh} {i k : Nat} :
    i ∈ slotPolys mesh k ↔ ∃ p, mesh.mpoly[i]? = some p ∧ p.mat_nr = k := by
  unfold slotPolys
  rw [List.mem_filterMap]
  constructor
  · rintro ⟨⟨i', p⟩, hip, hf⟩
    by_cases h : p.mat_nr = k
    · rw [if_pos h] at hf
      injection hf with hf
      subst hf
      exact ⟨p, List.mk_mem_enum_iff_getElem?.mp hip, h⟩
    · rw [if_neg h] at hf
      cases hf
  · rintro ⟨p, hp, hk⟩
    exact ⟨(i, p), List.mk_mem_enum_iff_getElem?.mpr hp, by rw [if_pos hk]⟩

/-- Each face group lists its polygon indices in strictly increasing
(source) order. -/
theorem slotPolys_sorted (mesh : Mesh) (k : Nat) :
    (slotPolys mesh k).Pairwise (· < ·) := by
  unfold slotPolys
  rw [List.pairwise_filterMap]
  refine List.Pairwise.imp ?_ (enumFrom_pairwise_fst 0 mesh.mpoly)
  intro a b hab x hx y hy
  by_cases ha : a.2.mat_nr = k
  · rw [if_pos ha, Option.mem_def] at hx
    injection hx with hx
    by_cases hb : b.2.mat_nr = k
    · rw [if_pos hb, Option.mem_def] at hy
      injection hy with hy
      rw [← hx, ← hy]
      exact hab
    · rw [if_neg hb] at hy
      cases hy
  · rw [if_neg ha] at hx
    cases hx

/-- The slot-scanning loop of `assign_materials` finds the first non-empty
material slot. -/
theorem scan_slots_eq_findSome (slots : List (Option Material)) :
    scan_slots slots = slots.findSome? id := by
  induction slots with
  | nil => rfl
  | cons s rest ih =>
    cases s with
    | none => simpa [scan_slots, List.findSome?_cons] using ih
    | some m => simp [scan_slots, List.findSome?_cons]

/-- Each polygon contributes exactly `totloop` entries to `face_indices`. -/
theorem polyLoopVerts_length (mesh : Mesh) (p : MPoly) :
    (polyLoopVerts mesh p).length = p.totloop := by
  simp [polyLoopVerts]

/-- The sharpness branch of `get_creases`, written with a division as in
the spec: `crease * (1.0f / 255.0f)` equals `crease / 255` over `ℚ`. -/
theorem creaseSharpness_eq (c : Nat) :
    creaseSharpness c
      = if c = 255 then Sharpness.infinite else Sharpness.finite ((c : ℚ) / 255) := by
  unfold creaseSharpness
  by_cases h : c = 255 <;> simp [h, mul_one_div, div_eq_mul_inv]

/-- C2: `get_geometry_data` copies the vertex positions verbatim in index
order (one point per vertex), records one loop count per polygon in source
polygon order, and fills `face_indices` with the concatenation of each
polygon's loop vertex references in polygon-then-loop order. -/
theorem C2_geometry_buffers (mesh : Mesh) :
    (get_geometry_data mesh).points = mesh.mvert.map MVert.co
    ∧ (get_geometry_data mesh).points.length = mesh.mvert.length
    ∧ (get_geometry_data mesh).face_vertex_counts = mesh.mpoly.map MPoly.totloop
    ∧ (get_geometry_data mesh).face_indices
        = (mesh.mpoly.map (polyLoopVerts mesh)).flatten :=
  ⟨gd_points mesh, by rw [gd_points mesh]; simp,
    gd_face_vertex_counts mesh, gd_face_indices mesh⟩

/-- C3: after `get_geometry_data`, the face-vertex counts sum to the length
of `face_indices`, the crease-length and crease-sharpness arrays have equal
length, and the crease lengths sum to the length of `crease_vertex_indices`. -/
theorem C3_mesh_data_invariants (mesh : Mesh) :
    ((get_geometry_data mesh).face_vertex_counts).sum
        = (get_geometry_data mesh).face_indices.length
    ∧ (get_geometry_data mesh).crease_lengths.length
        = (get_geometry_data mesh).crease_sharpnesses.length
    ∧ (get_geometry_data mesh).crease_lengths.sum
        = (get_geometry_data mesh).crease_vertex_indices.length := by
  refine ⟨?_, ?_, ?_⟩
  · rw [gd_face_vertex_counts, gd_face_indices, List.length_flatten, List.map_map]
    have h : List.length ∘ polyLoopVerts mesh = MPoly.totloop := by
      funext p
      exact polyLoopVerts_length mesh p
    rw [h]
  · rw [gd_crease_lengths, gd_crease_sharpnesses]
    simp
  · rw [gd_crease_lengths, gd_crease_vertex_indices, List.length_flatten, List.map_map]
    have h : (List.length ∘ fun e : MEdge => [e.v1, e.v2]) = fun _ => 2 := by
      funext e
      rfl
    rw [h]

/-- C4: crease extraction skips edges of crease weight 0, maps weight 255
to the infinite-sharpness sentinel and weight `w ∈ (0, 255)` to `w / 255`,
and gives each creased edge exactly one independent 2-vertex run: its two
vertex indices, the length 2, and its sharpness, in source edge order. -/
theorem C4_crease_runs (mesh : Mesh) :
    (get_geometry_data mesh).crease_vertex_indices
        = ((mesh.medge.filter (fun e => e.crease != 0)).map
            (fun e => [e.v1, e.v2])).flatten
    ∧ (get_geometry_data mesh).crease_lengths
        = (mesh.medge.filter (fun e => e.crease != 0)).map (fun _ => 2)
    ∧ (get_geometry_data mesh).crease_sharpnesses
        = (mesh.medge.filter (fun e => e.crease != 0)).map
            (fun e => if e.crease = 255 then Sharpness.infinite
              else Sharpness.finite ((e.crease : ℚ) / 255)) := by
  refine ⟨gd_crease_vertex_indices mesh, gd_crease_lengths mesh, ?_⟩
  rw [gd_crease_sharpnesses]
  exact List.map_congr_left (fun e _ => creaseSharpness_eq e.crease)

/-- C5: `face_groups` is filled exactly when the source mesh has more than
one material slot — then slot `k`'s group lists the polygon indices whose
`mat_nr` is `k`, in source order — and stays empty with one slot or none,
regardless of polygon count. -/
theorem C5_face_groups_iff_multislot (mesh : Mesh) :
    (1 < mesh.totcol →
      ∀ k, fgLookup (get_geometry_data mesh).face_groups k = slotPolys mesh k)
    ∧ (mesh.totcol ≤ 1 → (get_geometry_data mesh).face_groups = []) := by
  constructor
  · intro hc k
    exact gd_fg_lookup mesh hc k
  · intro hc
    rw [gd_face_groups, if_neg (by omega)]

/-- Witness for C5 on the concrete two-slot mesh. -/
theorem C5_witness :
    1 < exMesh2.totcol
    ∧ fgLookup (get_geometry_data exMesh2).face_groups 1 = slotPolys exMesh2 1 :=
  ⟨by decide, (C5_face_groups_iff_multislot exMesh2).1 (by decide) 1⟩

/-- C10: with more than one material slot, the face groups partition the
polygon indices — polygon `i` lies in slot `k`'s group exactly when polygon
`i` exists and its `mat_nr` is `k` (hence each polygon is in exactly one
group), and each group's list is strictly increasing. -/
theorem C10_face_groups_partition (mesh : Mesh) (hc : 1 < mesh.totcol) :
    (∀ i k, i ∈ fgLookup (get_geometry_data mesh).face_groups k
        ↔ ∃ p, mesh.mpoly[i]? = some p ∧ p.mat_nr = k)
    ∧ (∀ i p, mesh.mpoly[i]? = some p →
        i ∈ fgLookup (get_geometry_data mesh).face_groups p.mat_nr)
    ∧ (∀ i k k', i ∈ fgLookup (get_geometry_data mesh).face_groups k →
        i ∈ fgLookup (get_geometry_data mesh).face_groups k' → k = k')
    ∧ (∀ k, (fgLookup (get_geometry_data mesh).face_groups k).Pairwise (· < ·)) := by
  have hmem : ∀ i k, i ∈ fgLookup (get_geometry_data mesh).face_groups k
      ↔ ∃ p, mesh.mpoly[i]? = some p ∧ p.mat_nr = k := by
    intro i k
    rw [gd_fg_lookup mesh hc k]
    exact mem_slotPolys
  refine ⟨hmem, ?_, ?_, ?_⟩
  · intro i p hp
    exact (hmem i p.mat_nr).mpr ⟨p, hp, rfl⟩
  · intro i k k' hk hk'
    obtain ⟨p, hp, hpk⟩ := (hmem i k).mp hk
    obtain ⟨p', hp', hpk'⟩ := (hmem i k').mp hk'
    rw [hp] at hp'
    injection hp' with hp'
    rw [← hpk, ← hpk', hp']
  · intro k
    rw [gd_fg_lookup mesh hc k]
    exact slotPolys_sorted mesh k

/-- Witness for C10 on the concrete two-slot mesh. -/
theorem C10_witness :
    1 < exMesh2.totcol
    ∧ (1 ∈ fgLookup (get_geometry_data exMesh2).face_groups 1
        ↔ ∃ p, exMesh2.mpoly[1]? = some p ∧ p.mat_nr = 1) :=
  ⟨by decide, (C10_face_groups_partition exMesh2 (by decide)).1 1 1⟩

/-- Evaluation of `assign_materials` on the zero-slot path. -/
theorem am_totcol_zero {ob : Object} (fg : List (Nat × List Nat))
    (h0 : ob.totcol = 0) :
    assign_materials ob fg
      = { bound_material := none, double_sided := none, subsets := [] } := by
  unfold assign_materials
  rw [if_pos h0]

/-- Evaluation of `assign_materials` when a slot scan finds a material and
fewer than two face groups exist. -/
theorem am_some_small {ob : Object} {m : Material} (fg : List (Nat × List Nat))
    (h0 : ¬ ob.totcol = 0) (hscan : scan_slots ob.slots = some m)
    (hlen : fg.length < 2) :
    assign_materials ob fg
      = { bound_material := some m
          double_sided := some (m.blend_flag &&& MA_BL_CULL_BACKFACE == 0)
          subsets := [] } := by
  unfold assign_materials
  rw [if_neg h0, hscan]
  simp [hlen]

/-- Evaluation of `assign_materials` when a slot scan finds a material and
at least two face groups exist. -/
theorem am_some_big {ob : Object} {m : Material} (fg : List (Nat × List Nat))
    (h0 : ¬ ob.totcol = 0) (hscan : scan_slots ob.slots = some m)
    (hlen : ¬ fg.length < 2) :
    assign_materials ob fg
      = { bound_material := some m
          double_sided := some (m.blend_flag &&& MA_BL_CULL_BACKFACE == 0)
          subsets := fg.filterMap (fun kf =>
            match give_current_material ob (kf.1 + 1) with
            | none => none
            | some mat => some (kf.1, mat, kf.2)) } := by
  unfold assign_materials
  rw [if_neg h0, hscan]
  simp [hlen]

/-- Evaluation of `assign_materials` when every slot is empty. -/
theorem am_none {ob : Object} (fg : List (Nat × List Nat))
    (h0 : ¬ ob.totcol = 0) (hscan : scan_slots ob.slots = none) :
    assign_materials ob fg
      = { bound_material := none, double_sided := some true, subsets := [] } := by
  unfold assign_materials
  rw [if_neg h0, hscan]

/-- C6: with at least one material slot, the first slot holding a material
is bound to the whole mesh and the double-sided flag is the negation of
its backface-culling bit; if all slots are empty nothing is bound and the
flag defaults to `true`; with zero slots nothing at all happens. -/
theorem C6_whole_mesh_binding (ob : Object) (fg : List (Nat × List Nat)) :
    (ob.totcol = 0 →
      assign_materials ob fg
        = { bound_material := none, double_sided := none, subsets := [] })
    ∧ (0 < ob.totcol →
        (∀ m, ob.slots.findSome? id = some m →
          (assign_materials ob fg).bound_material = some m
          ∧ (assign_materials ob fg).double_sided
              = some (m.blend_flag &&& MA_BL_CULL_BACKFACE == 0))
        ∧ (ob.slots.findSome? id = none →
            assign_materials ob fg
              = { bound_material := none, double_sided := some true,
                  subsets := [] })) := by
  constructor
  · intro h0
    exact am_totcol_zero fg h0
  · intro hpos
    have h0 : ¬ ob.totcol = 0 := by omega
    constructor
    · intro m hm
      have hscan : scan_slots ob.slots = some m := by
        rw [scan_slots_eq_findSome]
        exact hm
      by_cases hlen : fg.length < 2
      · rw [am_some_small fg h0 hscan hlen]
        exact ⟨rfl, rfl⟩
      · rw [am_some_big fg h0 hscan hlen]
        exact ⟨rfl, rfl⟩
    · intro hm
      have hscan : scan_slots ob.slots = none := by
        rw [scan_slots_eq_findSome]
        exact hm
      exact am_none fg h0 hscan

/-- Witness for C6 on the concrete two-slot object; the first slot's
material requests backface culling, so the mesh is not double-sided. -/
theorem C6_witness :
    0 < exObject2.totcol
    ∧ exObject2.slots.findSome? id = some exMaterialCull
    ∧ (assign_materials exObject2 []).bound_material = some exMaterialCull
    ∧ (assign_materials exObject2 []).double_sided = some false :=
  ⟨by decide, by decide,
    (((C6_whole_mesh_binding exObject2 []).2 (by decide)).1 exMaterialCull (by decide)).1,
    (((C6_whole_mesh_binding exObject2 []).2 (by decide)).1 exMaterialCull (by decide)).2⟩

/-- C7: geometry subsets exist only when a whole-mesh material was bound
and at least two face groups exist; in that case there is exactly one
subset per face group whose slot resolves to a material — carrying that
slot's key, material and polygon-index list — produced in slot-index
order, and groups with an empty slot are skipped. -/
theorem C7_geometry_subsets (ob : Object) (mesh : Mesh) :
    ((assign_materials ob (get_geometry_data mesh).face_groups).subsets ≠ [] →
      (assign_materials ob (get_geometry_data mesh).face_groups).bound_material ≠ none
      ∧ 2 ≤ (get_geometry_data mesh).face_groups.length)
    ∧ ((assign_materials ob (get_geometry_data mesh).face_groups).bound_material = none
        ∨ (get_geometry_data mesh).face_groups.length < 2 →
      (assign_materials ob (get_geometry_data mesh).face_groups).subsets = [])
    ∧ (∀ m,
        (assign_materials ob (get_geometry_data mesh).face_groups).bound_material
            = some m →
        2 ≤ (get_geometry_data mesh).face_groups.length →
        (assign_materials ob (get_geometry_data mesh).face_groups).subsets
            = (get_geometry_data mesh).face_groups.filterMap (fun kf =>
                match give_current_material ob (kf.1 + 1) with
                | none => none
                | some mat => some (kf.1, mat, kf.2))
        ∧ (assign_materials ob (get_geometry_data mesh).face_groups).subsets.Pairwise
            (fun a b => a.1 < b.1)) := by
  have hsub : ∀ m, (assign_materials ob (get_geometry_data mesh).face_groups).bound_material
      = some m →
      2 ≤ (get_geometry_data mesh).face_groups.length →
      (assign_materials ob (get_geometry_data mesh).face_groups).subsets
        = (get_geometry_data mesh).face_groups.filterMap (fun kf =>
            match give_current_material ob (kf.1 + 1) with
            | none => none
            | some mat => some (kf.1, mat, kf.2)) := by
    intro m hm hlen
    by_cases h0 : ob.totcol = 0
    · rw [am_totcol_zero _ h0] at hm
      cases hm
    cases hscan : scan_slots ob.slots with
    | none =>
      rw [am_none _ h0 hscan] at hm
      cases hm
    | some mat =>
      rw [am_some_big _ h0 hscan (by omega)]
  refine ⟨?_, ?_, ?_⟩
  · intro hne
    by_cases h0 : ob.totcol = 0
    · rw [am_totcol_zero _ h0] at hne
      exact absurd rfl hne
    cases hscan : scan_slots ob.slots with
    | none =>
      rw [am_none _ h0 hscan] at hne
      exact absurd rfl hne
    | some mat =>
      by_cases hlen : (get_geometry_data mesh).face_groups.length < 2
      · rw [am_some_small _ h0 hscan hlen] at hne
        exact absurd rfl hne
      · rw [am_some_big _ h0 hscan hlen]
        exact ⟨fun h => Option.noConfusion h, by omega⟩
  · intro hcase
    by_cases h0 : ob.totcol = 0
    · rw [am_totcol_zero _ h0]
    cases hscan : scan_slots ob.slots with
    | none =>
      rw [am_none _ h0 hscan]
    | some mat =>
      by_cases hlen : (get_geometry_data mesh).face_groups.length < 2
      · rw [am_some_small _ h0 hscan hlen]
      · rcases hcase with h | h
        · rw [am_some_big _ h0 hscan hlen] at h
          cases h
        · omega
  · intro m hm hlen
    refine ⟨hsub m hm hlen, ?_⟩
    rw [hsub m hm hlen, List.pairwise_filterMap]
    refine List.Pairwise.imp ?_ (gd_fg_sorted mesh)
    intro a b hab x hx y hy
    cases hga : give_current_material ob (a.1 + 1) with
    | none =>
      rw [hga] at hx
      cases hx
    | some mata =>
      rw [hga, Option.mem_def] at hx
      injection hx with hx
      cases hgb : give_current_material ob (b.1 + 1) with
      | none =>
        rw [hgb] at hy
        cases hy
      | some matb =>
        rw [hgb, Option.mem_def] at hy
        injection hy with hy
        rw [← hx, ← hy]
        exact hab

/-- Witness for C7 on the concrete two-slot object and mesh: both slots
resolve, so both face groups get a subset, in slot order. -/
theorem C7_witness :
    (assign_materials exObject2 (get_geometry_data exMesh2).face_groups).bound_material
        = some exMaterialCull
    ∧ 2 ≤ (get_geometry_data exMesh2).face_groups.length
    ∧ (assign_materials exObject2 (get_geometry_data exMesh2).face_groups).subsets
        = (get_geometry_data exMesh2).face_groups.filterMap (fun kf =>
            match give_current_material exObject2 (kf.1 + 1) with
            | none => none
            | some mat => some (kf.1, mat, kf.2)) :=
  ⟨by decide, by decide,
    ((C7_geometry_subsets exObject2 exMesh2).2.2 exMaterialCull
      (by decide) (by decide)).1⟩

/-- C8: when a frame has already been written for the object, `write_mesh`
still sets the geometry attributes (points, face vertex counts, face
indices, and the three crease arrays when non-empty) from the extracted
data, but material assignment does not run: no bindings, no double-sided
flag, no subsets. -/
theorem C8_second_frame_geometry_only (ob : Object) (mesh : Mesh) :
    (write_mesh true ob mesh).points = (get_geometry_data mesh).points
    ∧ (write_mesh true ob mesh).face_vertex_counts
        = (get_geometry_data mesh).face_vertex_counts
    ∧ (write_mesh true ob mesh).face_indices = (get_geometry_data mesh).face_indices
    ∧ ((get_geometry_data mesh).crease_lengths = [] →
        (write_mesh true ob mesh).creases = none)
    ∧ ((get_geometry_data mesh).crease_lengths ≠ [] →
        (write_mesh true ob mesh).creases
          = some ((get_geometry_data mesh).crease_lengths,
              (get_geometry_data mesh).crease_vertex_indices,
              (get_geometry_data mesh).crease_sharpnesses))
    ∧ (write_mesh true ob mesh).assign = none := by
  refine ⟨rfl, rfl, rfl, ?_, ?_, rfl⟩
  · intro h
    unfold write_mesh
    simp [h]
  · intro h
    unfold write_mesh
    simp [h]

/-- Witness for C8 on the concrete mesh, which has two creased edges. -/
theorem C8_witness :
    (get_geometry_data exMesh2).crease_lengths ≠ []
    ∧ (write_mesh true exObject2 exMesh2).creases
        = some ((get_geometry_data exMesh2).crease_lengths,
            (get_geometry_data exMesh2).crease_vertex_indices,
            (get_geometry_data exMesh2).crease_sharpnesses)
    ∧ (write_mesh true exObject2 exMesh2).assign = none :=
  ⟨by decide,
    (C8_second_frame_geometry_only exObject2 exMesh2).2.2.2.2.1 (by decide),
    (C8_second_frame_geometry_only exObject2 exMesh2).2.2.2.2.2⟩

/-- C9 counterexample: on a `write_mesh` call with `frame_has_been_written_`
already true, the double-sided attribute is not set, although the object has
a material slot — the claim that it is written on every call fails here. -/
theorem C9_counterexample :
    (write_mesh true exObject2 exMesh2).double_sided_written = none := rfl

/-- C9 (amended): the double-sided attribute is set during a `write_mesh`
call exactly when material assignment runs, i.e. when no frame has been
written yet and the object has at least one material slot. -/
theorem C9_double_sided_when_assigning (fhw : Bool) (ob : Object) (mesh : Mesh) :
    (write_mesh fhw ob mesh).double_sided_written.isSome
      = (!fhw && !(ob.totcol == 0)) := by
  cases fhw with
  | true => rfl
  | false =>
    show (assign_materials ob (get_geometry_data mesh).face_groups).double_sided.isSome
      = !(ob.totcol == 0)
    by_cases h0 : ob.totcol = 0
    · rw [am_totcol_zero _ h0, h0]
      rfl
    · have hbeq : (ob.totcol == 0) = false := by
        simpa using h0
      rw [hbeq]
      cases hscan : scan_slots ob.slots with
      | none =>
        rw [am_none _ h0 hscan]
        rfl
      | some m =>
        by_cases hlen : (get_geometry_data mesh).face_groups.length < 2
        · rw [am_some_small _ h0 hscan hlen]
          rfl
        · rw [am_some_big _ h0 hscan hlen]
          rfl

/-- Evaluation of `do_write` when the `write_mesh` call returns normally. -/
theorem do_write_ok {wm : Mesh → Except Unit WriteOut} {mesh : Mesh} {r : WriteOut}
    (h : wm mesh = Except.ok r) (needsfree : Bool) :
    do_write (some (mesh, needsfree)) wm
      = { freed := if needsfree then [mesh] else []
          result := Except.ok (some r) } := by
  simp only [do_write]
  rw [h]

/-- Evaluation of `do_write` when the `write_mesh` call raises. -/
theorem do_write_error {wm : Mesh → Except Unit WriteOut} {mesh : Mesh} {e : Unit}
    (h : wm mesh = Except.error e) (needsfree : Bool) :
    do_write (some (mesh, needsfree)) wm
      = { freed := if needsfree then [mesh] else []
          result := Except.error e } := by
  simp only [do_write]
  rw [h]

/-- C1: whenever `do_write` acquires a mesh, the mesh is freed exactly once
when flagged temporary — on the normal path and on the exception path alike,
the exception then propagating — and never freed otherwise. -/
theorem C1_temporary_mesh_freed (mesh : Mesh) (needsfree : Bool)
    (wm : Mesh → Except Unit WriteOut) :
    (needsfree = true → (do_write (some (mesh, needsfree)) wm).freed = [mesh])
    ∧ (needsfree = false → (do_write (some (mesh, needsfree)) wm).freed = [])
    ∧ (∀ e, wm mesh = Except.error e →
        (do_write (some (mesh, needsfree)) wm).result = Except.error e)
    ∧ (∀ r, wm mesh = Except.ok r →
        (do_write (some (mesh, needsfree)) wm).result = Except.ok (some r)) := by
  cases h : wm mesh with
  | ok r =>
    rw [do_write_ok h]
    refine ⟨fun hf => by simp [hf], fun hf => by simp [hf], ?_, ?_⟩
    · intro e he
      cases he
    · intro r' hr
      injection hr with hr
      rw [hr]
  | error e =>
    rw [do_write_error h]
    refine ⟨fun hf => by simp [hf], fun hf => by simp [hf], ?_, ?_⟩
    · intro e' he
      injection he with he
      rw [he]
    · intro r' hr
      cases hr

/-- Witness for C1: a temporary mesh whose `write_mesh` raises is freed
exactly once and the exception propagates. -/
theorem C1_witness :
    (fun _ : Mesh => (Except.error () : Except Unit WriteOut)) exMesh2 = Except.error ()
    ∧ (do_write (some (exMesh2, true))
        (fun _ => (Except.error () : Except Unit WriteOut))).freed = [exMesh2]
    ∧ (do_write (some (exMesh2, true))
        (fun _ => (Except.error () : Except Unit WriteOut))).result
          = Except.error () :=
  ⟨rfl,
    (C1_temporary_mesh_freed exMesh2 true
      (fun _ => (Except.error () : Except Unit WriteOut))).1 rfl,
    (C1_temporary_mesh_freed exMesh2 true
      (fun _ => (Except.error () : Except Unit WriteOut))).2.2.1 () rfl⟩

end USDMesh
